import Mathlib

/-!
Verification of the batch background-removal pipeline in `bg_remover.py`.

The development shallowly embeds the pipeline's pure logic:
* images as a mode plus a row-major pixel list (`Img`, `Pixel`),
* the compositing helpers `add_color_background` / `add_image_background`
  (PIL's `Image.alpha_composite` is modelled per-pixel by the straight
  alpha-over operator it implements),
* the encoder's PNG/JPEG choice (`image_to_bytes_format`),
* the per-file task `process_single_image` and the aggregation loop of
  `process_images_parallel`, including the sidebar's batch truncation.

External effects (PIL decode, the `rembg` segmentation model) are modelled
by oracle fields on `UploadedFile`: the bytes' size, whether the task body
raises, and the images the external calls would produce on success.
-/

namespace BgRemover

/-- Constant `MAX_FILES = 10` (bg_remover.py line 12). -/
def MAX_FILES : Nat := 10

/-- Constant `MAX_IMAGE_SIZE_MB = 10` (line 14). -/
def MAX_IMAGE_SIZE_MB : Nat := 10

/-- Constant `MB_TO_BYTES = 1024 * 1024` (line 15). -/
def MB_TO_BYTES : Nat := 1024 * 1024

/-- An RGBA pixel; channels are 0..255 as in PIL's 8-bit images. -/
structure Pixel where
  r : Nat
  g : Nat
  b : Nat
  a : Nat
deriving DecidableEq, Repr

/-- The two PIL color modes this pipeline produces (`convert("RGBA")`,
`convert("RGB")`). -/
inductive ImgMode where
  | RGBA
  | RGB
deriving DecidableEq, Repr

/-- An in-memory image: dimensions, mode, and a row-major pixel list.
For an `RGB`-mode image the `a` field of its pixels is not meaningful
(PIL stores no alpha there); such images are opaque. -/
@[ext]
structure Img where
  width : Nat
  height : Nat
  mode : ImgMode
  data : List Pixel
deriving DecidableEq, Repr

/-- A parsed background color (PIL parses the `"#RRGGBB"` hex string from
the color picker into channel values). -/
structure RGB where
  r : Nat
  g : Nat
  b : Nat
deriving DecidableEq, Repr

/-- Per-pixel straight alpha-over compositing, the operator PIL's
`Image.alpha_composite` implements: with `A = fg.a/255` the output is
`out = fg*A + bg*(bg.a/255)*(1-A)` per channel, un-premultiplied by the
output alpha.  Scaled to integers: `outA` below is the output alpha times
255. -/
def compositePixel (bg fg : Pixel) : Pixel :=
  if fg.a * 255 + bg.a * (255 - fg.a) = 0 then ⟨0, 0, 0, 0⟩
  else
    ⟨(fg.r * fg.a * 255 + bg.r * (bg.a * (255 - fg.a))) / (fg.a * 255 + bg.a * (255 - fg.a)),
     (fg.g * fg.a * 255 + bg.g * (bg.a * (255 - fg.a))) / (fg.a * 255 + bg.a * (255 - fg.a)),
     (fg.b * fg.a * 255 + bg.b * (bg.a * (255 - fg.a))) / (fg.a * 255 + bg.a * (255 - fg.a)),
     (fg.a * 255 + bg.a * (255 - fg.a)) / 255⟩

/-- Models `Image.alpha_composite(background, image)`: `image` is composited over
`background`.  PIL requires both operands to have equal size and RGBA mode;
the callers in this file guarantee that, and the output carries the
foreground's (equal) dimensions. -/
def alpha_composite (bg fg : Img) : Img :=
  ⟨fg.width, fg.height, ImgMode.RGBA, List.zipWith compositePixel bg.data fg.data⟩

/-- Models `img.convert("RGBA")`: identity on RGBA images; an RGB image gains an
alpha channel that is 255 (fully opaque) everywhere. -/
def convert_rgba (img : Img) : Img :=
  if img.mode = ImgMode.RGBA then img
  else ⟨img.width, img.height, ImgMode.RGBA, img.data.map fun p => ⟨p.r, p.g, p.b, 255⟩⟩

/-- Pixel lookup with a default, for the resize model. -/
def nthPixel (img : Img) (i : Nat) : Pixel :=
  img.data.getD i ⟨0, 0, 0, 0⟩

/-- Models `img.resize((w, h))`: a stretch resample to the requested dimensions.
The claims about `resize` concern only the output dimensions, so the
resample kernel is modelled as nearest-neighbour sampling. -/
def resize (img : Img) (w h : Nat) : Img :=
  ⟨w, h, img.mode,
    (List.range (w * h)).map fun i =>
      let x := i % w
      let y := i / w
      nthPixel img (y * img.height / h * img.width + x * img.width / w)⟩

/-- Function `add_color_background` (lines 198-204): ensure RGBA, build a fully
opaque solid background of the image's size, composite the image over it. -/
def add_color_background (image : Img) (color : RGB) : Img :=
  let image := if image.mode = ImgMode.RGBA then image else convert_rgba image
  let background : Img :=
    ⟨image.width, image.height, ImgMode.RGBA,
      List.replicate (image.width * image.height) ⟨color.r, color.g, color.b, 255⟩⟩
  alpha_composite background image

/-- The background actually composited by `add_image_background`
(lines 208-210): resized to the foreground's size whenever the sizes
differ, untouched otherwise. -/
def background_for (foreground background_img : Img) : Img :=
  if (background_img.width, background_img.height) ≠ (foreground.width, foreground.height) then
    resize background_img foreground.width foreground.height
  else background_img

/-- Function `add_image_background` (lines 206-213): resize the background to the
foreground's size if needed, convert it to RGBA, composite the foreground
over it. -/
def add_image_background (foreground background_img : Img) : Img :=
  alpha_composite (convert_rgba (background_for foreground background_img)) foreground

/-- PNG or JPEG, the two output encodings of `image_to_bytes`. -/
inductive Format where
  | png
  | jpeg
deriving DecidableEq, Repr

/-- The format / quality choice made by `image_to_bytes` (lines 283-292):
PNG when the image's mode is RGBA, otherwise JPEG at quality 85.  Only the
mode is consulted, never pixel values and never a file extension. -/
def image_to_bytes_format (img : Img) : Format × Option Nat :=
  if img.mode = ImgMode.RGBA then (Format.png, none) else (Format.jpeg, some 85)

/-- The three sidebar background options (line 91). -/
inductive BgOption where
  | transparent
  | color
  | image
deriving DecidableEq, Repr

/-- The per-run configuration collected by the sidebar: the chosen option,
the picked color, and the optional uploaded background bitmap (`None`
when the user picked Image but uploaded nothing; a PIL image object is
always truthy, so truthiness of `bg_image` is `isSome`). -/
structure Config where
  bgOption : BgOption
  bgColor : RGB
  bgImage : Option Img
deriving DecidableEq, Repr

/-- An uploaded file as the task sees it.  `size` is `len(file.getvalue())`.
The external calls inside the task's `try` block (PIL decode and the
`rembg` segmentation model) are modelled by an oracle: `exc = some e` means
the first of them raises an exception rendered as the string `e`;
`exc = none` means both succeed, producing `original`
(`Image.open(file).convert("RGBA")`) and `segmented`
(`remove_background(file.getvalue())`, an RGBA image). -/
structure UploadedFile where
  name : String
  size : Nat
  exc : Option String
  original : Img
  segmented : Img
deriving DecidableEq, Repr

/-- The second component of the task's return triple: a processed image on
success, a message string on failure. -/
inductive ResOrMsg where
  | img (i : Img)
  | msg (s : String)
deriving DecidableEq, Repr

/-- Python truthiness of the second component: a PIL image is always
truthy; a string is truthy iff nonempty. -/
def ResOrMsg.truthy : ResOrMsg → Bool
  | .img _ => true
  | .msg s => s != ""

/-- The task's return value, the triple of lines 156 / 166 / 168:
`(original-or-None, result-or-message, name-or-None)`. -/
structure TaskReturn where
  original : Option Img
  second : ResOrMsg
  name : Option String
deriving DecidableEq, Repr

/-- Python truthiness of the `name` slot (`None` or a string). -/
def truthyName : Option String → Bool
  | some s => s != ""
  | none => false

/-- Function `process_single_image` (lines 153-168): reject oversized bytes, run
decode and segmentation (any exception is caught and turned into the
failure triple), apply the configured background, return the success
triple. -/
def process_single_image (cfg : Config) (file : UploadedFile) : TaskReturn :=
  if file.size > MAX_IMAGE_SIZE_MB * MB_TO_BYTES then
    { original := none
      second := ResOrMsg.msg
        ("Image " ++ file.name ++ " exceeds " ++ toString MAX_IMAGE_SIZE_MB ++ "MB limit")
      name := none }
  else
    match file.exc with
    | some e =>
        { original := none
          second := ResOrMsg.msg ("Error processing " ++ file.name ++ ": " ++ e)
          name := none }
    | none =>
        let result := file.segmented
        let result :=
          match cfg.bgOption with
          | BgOption.color => add_color_background result cfg.bgColor
          | BgOption.image =>
              match cfg.bgImage with
              | some b => add_image_background result b
              | none => result
          | BgOption.transparent => result
        { original := some file.original
          second := ResOrMsg.img result
          name := some file.name }

/-- A success-shaped task return (the `(original, result, name)` triple of
line 166, with `original` non-None). -/
def isSuccessRet (r : TaskReturn) : Bool :=
  r.original.isSome

/-- A failure-shaped task return (the `(None, message, None)` triple of
lines 156 and 168). -/
def isFailureRet (r : TaskReturn) : Bool :=
  r.original.isNone

/-- The message carried by a failure-shaped return ("" on a success). -/
def messageOf (r : TaskReturn) : String :=
  match r.second with
  | ResOrMsg.msg s => s
  | ResOrMsg.img _ => ""

/-- The condition of line 176, `if original and result:` under Python
truthiness. -/
def successCond (r : TaskReturn) : Bool :=
  r.original.isSome && r.second.truthy

/-- The observable state built by the aggregation loop:
`st.session_state.results`, the values passed to `st.warning`, and the
`(completed, total)` progress signals. -/
structure BatchState where
  results : List (Option Img × ResOrMsg × Option String)
  warnings : List ResOrMsg
  progress : List (Nat × Nat)
deriving DecidableEq, Repr

/-- One iteration of the loop of lines 173-186 over a resolved future `r`:
append the triple when `original and result` is truthy, otherwise display
the warning when `name` is truthy (`elif name:`), then emit the progress
signal `(i+1, total)`. -/
def loopStep (total : Nat) (acc : BatchState × Nat) (r : TaskReturn) : BatchState × Nat :=
  let st := acc.1
  let i := acc.2
  let st :=
    if successCond r then
      { st with results := st.results ++ [(r.original, r.second, r.name)] }
    else if truthyName r.name then
      { st with warnings := st.warnings ++ [r.second] }
    else st
  ({ st with progress := st.progress ++ [(i + 1, total)] }, i + 1)

/-- Line 171: one task is submitted to the `ThreadPoolExecutor` per
uploaded file, unconditionally; the futures are collected in submission
order.  The per-task function catches every exception, so `future.result()`
never raises and the `except` of lines 180-181 is dead. -/
def submitted_tasks (cfg : Config) (uploaded_files : List UploadedFile) : List TaskReturn :=
  uploaded_files.map (process_single_image cfg)

/-- Function `process_images_parallel` (lines 144-191): resolve the futures in
submission order, aggregating results, warnings and progress. -/
def process_images_parallel (cfg : Config) (uploaded_files : List UploadedFile) : BatchState :=
  let futures := submitted_tasks cfg uploaded_files
  (futures.foldl (loopStep futures.length) (⟨[], [], []⟩, 0)).1

/-- The sidebar's batch-size cap (lines 120-122): a batch longer than
`MAX_FILES` is cut to its first `MAX_FILES` files. -/
def truncate_uploads (uploaded_files : List UploadedFile) : List UploadedFile :=
  if uploaded_files.length > MAX_FILES then uploaded_files.take MAX_FILES else uploaded_files

/-- Formalises the spec's notion of the admitted (non-oversized) images of
a batch, for comparison with what the code actually submits. -/
def admittedFiles (uploaded_files : List UploadedFile) : List UploadedFile :=
  uploaded_files.filter fun f => f.size ≤ MAX_IMAGE_SIZE_MB * MB_TO_BYTES

/-! ### Characterising the aggregation loop -/

/-- The triples the loop appends to `results`. -/
def successes (rets : List TaskReturn) : List (Option Img × ResOrMsg × Option String) :=
  rets.filterMap fun r =>
    if successCond r then some (r.original, r.second, r.name) else none

/-- The values the loop hands to `st.warning`. -/
def warns (rets : List TaskReturn) : List ResOrMsg :=
  rets.filterMap fun r =>
    if successCond r then none
    else if truthyName r.name then some r.second else none

/-- The progress signals emitted for `n` futures resolved after `i`
earlier ones, with denominator `total`. -/
def progSeq (i total n : Nat) : List (Nat × Nat) :=
  match n with
  | 0 => []
  | m + 1 => (i + 1, total) :: progSeq (i + 1) total m

lemma progSeq_length (i total n : Nat) : (progSeq i total n).length = n := by
  induction n generalizing i with
  | zero => rfl
  | succ m ih => simp [progSeq, ih]

lemma loopStep_foldl (total : Nat) (rets : List TaskReturn) :
    ∀ (st : BatchState) (i : Nat),
      rets.foldl (loopStep total) (st, i) =
        ({ results := st.results ++ successes rets
           warnings := st.warnings ++ warns rets
           progress := st.progress ++ progSeq i total rets.length },
         i + rets.length) := by
  induction rets with
  | nil => intro st i; simp [successes, warns, progSeq]
  | cons r rs ih =>
    intro st i
    rw [List.foldl_cons, loopStep]
    by_cases hs : successCond r
    · rw [ih]
      simp [successes, warns, progSeq, hs, List.length_cons]
      omega
    · by_cases hn : truthyName r.name
      · rw [ih]
        simp [successes, warns, progSeq, hs, hn, List.length_cons]
        omega
      · rw [ih]
        simp [successes, warns, progSeq, hs, hn, List.length_cons]
        omega

lemma batch_results (cfg : Config) (files : List UploadedFile) :
    (process_images_parallel cfg files).results = successes (submitted_tasks cfg files) := by
  rw [process_images_parallel, loopStep_foldl]
  simp

lemma batch_warnings (cfg : Config) (files : List UploadedFile) :
    (process_images_parallel cfg files).warnings = warns (submitted_tasks cfg files) := by
  rw [process_images_parallel, loopStep_foldl]
  simp

lemma batch_progress (cfg : Config) (files : List UploadedFile) :
    (process_images_parallel cfg files).progress =
      progSeq 0 files.length files.length := by
  rw [process_images_parallel, loopStep_foldl]
  simp [submitted_tasks]

/-- Every task return is either success-shaped, or carries `name = None`:
the two failure branches of `process_single_image` both return the
`(None, message, None)` triple. -/
lemma process_single_image_shape (cfg : Config) (f : UploadedFile) :
    successCond (process_single_image cfg f) = true ∨
      (process_single_image cfg f).name = none := by
  unfold process_single_image
  split
  · right; rfl
  · split
    · right; rfl
    · left; rfl

/-- On returns of `process_single_image`, the loop's append condition
coincides with being success-shaped. -/
lemma successCond_eq_isSuccessRet (cfg : Config) (f : UploadedFile) :
    successCond (process_single_image cfg f) = isSuccessRet (process_single_image cfg f) := by
  unfold process_single_image
  split
  · rfl
  · split
    · rfl
    · rfl

/-- The warning branch is dead on every batch: a failure-shaped return has
`name = None`, so `elif name:` never fires. -/
lemma warns_submitted_nil (cfg : Config) (files : List UploadedFile) :
    warns (submitted_tasks cfg files) = [] := by
  induction files with
  | nil => rfl
  | cons f fs ih =>
    have hf : (if successCond (process_single_image cfg f) then (none : Option ResOrMsg)
        else if truthyName (process_single_image cfg f).name
          then some (process_single_image cfg f).second else none) = none := by
      rcases process_single_image_shape cfg f with h | h
      · rw [if_pos h]
      · by_cases hs : successCond (process_single_image cfg f)
        · rw [if_pos hs]
        · rw [if_neg hs, h]
          rfl
    rw [submitted_tasks, List.map_cons, warns]
    simp only [List.filterMap_cons, hf]
    exact ih

lemma successes_length (rets : List TaskReturn) :
    (successes rets).length = rets.countP successCond := by
  induction rets with
  | nil => rfl
  | cons r rs ih =>
    rw [successes, List.filterMap_cons, List.countP_cons]
    by_cases h : successCond r
    · simp [h, successes] at ih ⊢
      omega
    · simp [h, successes] at ih ⊢
      omega

/-- Each task return is success-shaped or failure-shaped, never both. -/
lemma countP_success_failure (rets : List TaskReturn) :
    rets.countP isSuccessRet + rets.countP isFailureRet = rets.length := by
  induction rets with
  | nil => rfl
  | cons r rs ih =>
    rw [List.countP_cons, List.countP_cons, List.length_cons]
    cases h : r.original <;> simp [isSuccessRet, isFailureRet, h] <;> omega

lemma progSeq_fst_lt (total : Nat) :
    ∀ (n i : Nat), ∀ p ∈ progSeq i total n, i < p.1 := by
  intro n
  induction n with
  | zero => intro i p hp; simp [progSeq] at hp
  | succ m ih =>
    intro i p hp
    rw [progSeq] at hp
    rcases List.mem_cons.mp hp with h | h
    · subst h; simp
    · have := ih (i + 1) p h
      omega

lemma progSeq_pairwise (total : Nat) :
    ∀ (n i : Nat), (progSeq i total n).Pairwise (fun a b => a.1 < b.1) := by
  intro n
  induction n with
  | zero => intro i; simp [progSeq]
  | succ m ih =>
    intro i
    rw [progSeq]
    refine List.Pairwise.cons ?_ (ih (i + 1))
    intro b hb
    exact progSeq_fst_lt total m (i + 1) b hb

lemma progSeq_countP_hit (total : Nat) :
    ∀ (n i : Nat), i + n = total → 0 < n →
      (progSeq i total n).countP (fun p => p.1 == p.2) = 1 := by
  intro n
  induction n with
  | zero => intro i h hn; omega
  | succ m ih =>
    intro i h hn
    rw [progSeq, List.countP_cons]
    by_cases he : i + 1 = total
    · have hm : m = 0 := by omega
      subst hm
      simp [progSeq, he]
    · have hm : 0 < m := by omega
      rw [ih (i + 1) (by omega) hm]
      simp [he]

lemma progSeq_mem_last (total : Nat) :
    ∀ (n i : Nat), 0 < n → (i + n, total) ∈ progSeq i total n := by
  intro n
  induction n with
  | zero => intro i h; omega
  | succ m ih =>
    intro i _
    rw [progSeq]
    by_cases hm : m = 0
    · subst hm; simp
    · have := ih (i + 1) (Nat.pos_of_ne_zero hm)
      right
      have he : i + (m + 1) = (i + 1) + m := by omega
      rw [he]
      exact this

/-! ### Compositing lemmas -/

set_option maxRecDepth 10000 in
/-- Compositing a fully opaque foreground pixel over anything returns the
foreground pixel unchanged. -/
lemma compositePixel_fullAlpha (bg fg : Pixel) (h : fg.a = 255) :
    compositePixel bg fg = fg := by
  obtain ⟨r, g, b, a⟩ := fg
  simp only at h
  subst h
  rw [compositePixel]
  simp only [Nat.sub_self, Nat.mul_zero, Nat.add_zero]
  rw [if_neg (by norm_num)]
  have hc : ∀ c : Nat, c * 255 * 255 / (255 * 255) = c := by
    intro c
    rw [Nat.mul_assoc]
    exact Nat.mul_div_cancel c (by norm_num)
  rw [hc r, hc g, hc b]

/-- Compositing a pixel row over any constant background row of sufficient
length is the identity when every foreground pixel is fully opaque. -/
lemma zipWith_replicate_fullAlpha (c : Pixel) :
    ∀ (l : List Pixel) (n : Nat), l.length ≤ n → (∀ p ∈ l, p.a = 255) →
      List.zipWith compositePixel (List.replicate n c) l = l := by
  intro l
  induction l with
  | nil => intro n _ _; simp
  | cons p ps ih =>
    intro n hn hall
    cases n with
    | zero => simp at hn
    | succ m =>
      rw [List.replicate_succ, List.zipWith_cons_cons]
      rw [compositePixel_fullAlpha c p (hall p (List.mem_cons_self p ps))]
      rw [ih m (by simpa using hn) (fun q hq => hall q (List.mem_cons_of_mem p hq))]

/-! ### Concrete values for witnesses and counterexamples -/

/-- A 1x1 fully opaque RGBA image. -/
def imgA : Img := ⟨1, 1, ImgMode.RGBA, [⟨10, 20, 30, 255⟩]⟩

/-- A 1x1 RGBA image with a transparent pixel. -/
def imgT : Img := ⟨1, 1, ImgMode.RGBA, [⟨10, 20, 30, 128⟩]⟩

/-- A small well-behaved upload (2 KiB, decode and segmentation succeed). -/
def fileGood : UploadedFile := ⟨"photo.png", 2048, none, imgA, imgT⟩

/-- An 11 MiB upload, over the 10 MiB ceiling. -/
def fileBig : UploadedFile := ⟨"big.png", 11534336, none, imgA, imgA⟩

/-- An upload whose decode raises. -/
def fileBad : UploadedFile := ⟨"broken.jpg", 100, some "cannot identify image file", imgA, imgA⟩

/-- The default configuration: transparent background. -/
def cfgT : Config := ⟨BgOption.transparent, ⟨255, 255, 255⟩, none⟩

/-- Image background selected, but no background bitmap uploaded. -/
def cfgImgNone : Config := ⟨BgOption.image, ⟨255, 255, 255⟩, none⟩

/-- A 2x2 fully opaque RGBA foreground. -/
def fgEx : Img := ⟨2, 2, ImgMode.RGBA, List.replicate 4 ⟨1, 2, 3, 255⟩⟩

/-- A 1x1 RGB background, smaller than `fgEx`. -/
def bgEx : Img := ⟨1, 1, ImgMode.RGB, [⟨5, 6, 7, 0⟩]⟩

/-! ### Claims -/

/-- C1: the claim says every failed image produces a user-visible warning
naming the file and no failure is silently dropped.  The code violates
this: a failure returns the triple `(None, message, None)`, and the
display branch `elif name:` (line 178) tests exactly the `None` slot, so
`st.warning` (line 179) is dead code.  Evaluated on a batch of one
oversized file: the task produces a failure-shaped outcome, yet the run
shows no warning and stores no result — the failure vanishes. -/
theorem C1_failure_warning_never_shown :
    isFailureRet (process_single_image cfgT fileBig) = true ∧
    (process_images_parallel cfgT [fileBig]).warnings = [] ∧
    (process_images_parallel cfgT [fileBig]).results = [] := by
  refine ⟨rfl, ?_, ?_⟩
  · rw [batch_warnings, warns_submitted_nil]
  · rw [batch_results]
    rfl

/-- C2: every admitted image yields exactly one outcome — over any batch,
the success-shaped and failure-shaped task returns partition the batch, so
their counts sum to the batch length; moreover the stored results are
exactly the success-shaped returns. -/
theorem C2_outcome_partition (cfg : Config) (files : List UploadedFile) :
    (submitted_tasks cfg files).countP isSuccessRet
        + (submitted_tasks cfg files).countP isFailureRet = files.length ∧
    (process_images_parallel cfg files).results.length
        = (submitted_tasks cfg files).countP isSuccessRet := by
  constructor
  · rw [countP_success_failure]
    exact List.length_map files (process_single_image cfg)
  · rw [batch_results, successes_length]
    rw [submitted_tasks]
    exact List.countP_congr fun r hr => by
      rcases List.mem_map.mp hr with ⟨f, _, rfl⟩
      rw [successCond_eq_isSuccessRet]

/-- C3, counterexample: the claim says an oversized file is rejected
during validation, never submitted to the pool, and that the final
progress count equals the number of admitted (non-oversized) files.  On a
batch holding one 11 MiB file, the admitted set is empty, yet the file is
submitted as a task and the progress signals reach `(1, 1)`, not `(0, 0)`. -/
theorem C3_oversized_submitted_counterexample :
    (admittedFiles [fileBig]).length = 0 ∧
    (submitted_tasks cfgT [fileBig]).length = 1 ∧
    (process_images_parallel cfgT [fileBig]).progress = [(1, 1)] := by
  refine ⟨by decide, rfl, ?_⟩
  rw [batch_progress]
  rfl

/-- C3 (amended): the size check is the first statement inside the task,
so an oversized file still yields a Failure outcome carrying the size
message (before decode or segmentation can run — the message is the size
one even for files whose decode would raise); but the file is submitted to
the worker pool like every other, and the progress counter counts all
submitted files, reaching `(N, N)` for the full batch length `N`. -/
theorem C3_amended_oversized_failure_in_task (cfg : Config)
    (files : List UploadedFile) (f : UploadedFile) (hf : f ∈ files)
    (hsize : f.size > MAX_IMAGE_SIZE_MB * MB_TO_BYTES) :
    isFailureRet (process_single_image cfg f) = true ∧
    messageOf (process_single_image cfg f)
        = "Image " ++ f.name ++ " exceeds " ++ toString MAX_IMAGE_SIZE_MB ++ "MB limit" ∧
    (submitted_tasks cfg files).length = files.length ∧
    (files.length, files.length) ∈ (process_images_parallel cfg files).progress := by
  refine ⟨?_, ?_, List.length_map files (process_single_image cfg), ?_⟩
  · rw [process_single_image, if_pos hsize]
    rfl
  · rw [messageOf, process_single_image, if_pos hsize]
  · rw [batch_progress]
    have h0 := progSeq_mem_last files.length files.length 0
      (List.length_pos.mpr (List.ne_nil_of_mem hf))
    rwa [Nat.zero_add] at h0

/-- Witness for the amended C3 at a concrete batch. -/
theorem C3_amended_witness :
    isFailureRet (process_single_image cfgT fileBig) = true ∧
    ((1 : Nat), (1 : Nat)) ∈ (process_images_parallel cfgT [fileBig]).progress := by
  have h := C3_amended_oversized_failure_in_task cfgT [fileBig] fileBig
    (List.mem_singleton.mpr rfl) (by decide)
  exact ⟨h.1, h.2.2.2⟩

/-- C4: an exception inside a task (modelled by the decode/segmentation
oracle raising `e`) is caught at the task boundary and becomes a
failure-shaped outcome whose message names the file; every sibling file
still gets its own outcome and the batch's progress reaches `(N, N)`. -/
theorem C4_exception_becomes_failure (cfg : Config)
    (files : List UploadedFile) (f : UploadedFile) (e : String)
    (hf : f ∈ files) (hexc : f.exc = some e)
    (hsize : f.size ≤ MAX_IMAGE_SIZE_MB * MB_TO_BYTES) :
    isFailureRet (process_single_image cfg f) = true ∧
    messageOf (process_single_image cfg f) = "Error processing " ++ f.name ++ ": " ++ e ∧
    (∀ g ∈ files, process_single_image cfg g ∈ submitted_tasks cfg files) ∧
    (submitted_tasks cfg files).length = files.length ∧
    (files.length, files.length) ∈ (process_images_parallel cfg files).progress := by
  have hlt : ¬ f.size > MAX_IMAGE_SIZE_MB * MB_TO_BYTES := by omega
  refine ⟨?_, ?_, ?_, List.length_map files (process_single_image cfg), ?_⟩
  · rw [process_single_image, if_neg hlt, hexc]
    rfl
  · rw [messageOf, process_single_image, if_neg hlt, hexc]
  · intro g hg
    exact List.mem_map_of_mem (process_single_image cfg) hg
  · rw [batch_progress]
    have h0 := progSeq_mem_last files.length files.length 0
      (List.length_pos.mpr (List.ne_nil_of_mem hf))
    rwa [Nat.zero_add] at h0

/-- Witness for C4 at a concrete two-file batch. -/
theorem C4_witness :
    isFailureRet (process_single_image cfgT fileBad) = true ∧
    messageOf (process_single_image cfgT fileBad)
        = "Error processing broken.jpg: cannot identify image file" ∧
    ((2 : Nat), (2 : Nat)) ∈ (process_images_parallel cfgT [fileGood, fileBad]).progress := by
  have h := C4_exception_becomes_failure cfgT [fileGood, fileBad] fileBad
    "cannot identify image file" (by decide) rfl (by decide)
  exact ⟨h.1, h.2.1, h.2.2.2.2⟩

/-- C5: compositing a fully opaque RGBA foreground over a Color background
reproduces the foreground exactly. -/
theorem C5_full_alpha_over_color_identity (img : Img) (color : RGB)
    (hm : img.mode = ImgMode.RGBA)
    (hwf : img.data.length = img.width * img.height)
    (ha : ∀ p ∈ img.data, p.a = 255) :
    add_color_background img color = img := by
  simp only [add_color_background, alpha_composite]
  rw [if_pos hm]
  refine Img.ext rfl rfl hm.symm ?_
  exact zipWith_replicate_fullAlpha ⟨color.r, color.g, color.b, 255⟩ img.data
    (img.width * img.height) (le_of_eq hwf) ha

/-- Witness for C5 at a concrete fully opaque image. -/
theorem C5_witness : add_color_background imgA ⟨0, 128, 255⟩ = imgA :=
  C5_full_alpha_over_color_identity imgA ⟨0, 128, 255⟩ rfl rfl (by decide)

/-- C6: the Image background variant stretches the background to the
foreground's dimensions whenever they differ, and both the background it
composites and the composited output always carry the foreground's
dimensions. -/
theorem C6_output_dims_match_foreground (fg bg : Img) :
    (background_for fg bg).width = fg.width ∧
    (background_for fg bg).height = fg.height ∧
    ((bg.width, bg.height) ≠ (fg.width, fg.height) →
        background_for fg bg = resize bg fg.width fg.height) ∧
    (add_image_background fg bg).width = fg.width ∧
    (add_image_background fg bg).height = fg.height := by
  refine ⟨?_, ?_, ?_, rfl, rfl⟩
  · rw [background_for]
    by_cases h : (bg.width, bg.height) ≠ (fg.width, fg.height)
    · rw [if_pos h]
      rfl
    · rw [if_neg h]
      exact (Prod.mk.injEq _ _ _ _ ▸ not_not.mp h).1
  · rw [background_for]
    by_cases h : (bg.width, bg.height) ≠ (fg.width, fg.height)
    · rw [if_pos h]
      rfl
    · rw [if_neg h]
      exact (Prod.mk.injEq _ _ _ _ ▸ not_not.mp h).2
  · intro h
    rw [background_for, if_pos h]

/-- Witness for C6 at a foreground and background of different sizes. -/
theorem C6_witness :
    background_for fgEx bgEx = resize bgEx fgEx.width fgEx.height ∧
    (add_image_background fgEx bgEx).width = 2 ∧
    (add_image_background fgEx bgEx).height = 2 := by
  have h := C6_output_dims_match_foreground fgEx bgEx
  exact ⟨h.2.2.1 (by decide), h.2.2.2.1, h.2.2.2.2⟩

/-- C7, counterexample: the claim says a fully opaque image is encoded as
JPEG.  The encoder only looks at the color mode: `imgA` is fully opaque
(alpha 255 at its every pixel) yet, being RGBA, it is encoded as PNG —
and every image this pipeline hands to the encoder is RGBA. -/
theorem C7_full_alpha_png_counterexample :
    (∀ p ∈ imgA.data, p.a = 255) ∧
    (image_to_bytes_format imgA).1 = Format.png ∧
    ¬ (image_to_bytes_format imgA).1 = Format.jpeg := by
  refine ⟨by decide, rfl, by decide⟩

/-- C7 (amended): the encoder selects PNG exactly when the image carries an
alpha channel (mode RGBA) and JPEG at quality 85 exactly when it does not,
regardless of pixel values; in particular any image with a transparent
pixel (necessarily RGBA) is encoded as PNG.  The file extension is never
consulted. -/
theorem C7_amended_alpha_channel_decides (img : Img) :
    ((image_to_bytes_format img).1 = Format.png ↔ img.mode = ImgMode.RGBA) ∧
    ((image_to_bytes_format img).1 = Format.jpeg ↔ img.mode = ImgMode.RGB) ∧
    ((image_to_bytes_format img).2 = some 85 ↔ img.mode = ImgMode.RGB) ∧
    (img.mode = ImgMode.RGBA ∧ (∃ p ∈ img.data, p.a < 255) →
        (image_to_bytes_format img).1 = Format.png) := by
  rw [image_to_bytes_format]
  cases h : img.mode
  · simp [h]
  · simp [h]

/-- Witness for C7 (amended) at a concrete image with a transparent pixel. -/
theorem C7_amended_witness : (image_to_bytes_format imgT).1 = Format.png :=
  (C7_amended_alpha_channel_decides imgT).2.2.2 ⟨rfl, ⟨10, 20, 30, 128⟩, by decide, by decide⟩

/-- C8: a batch longer than `MAX_FILES` is truncated to its first
`MAX_FILES` files, and on the truncated set the outcome-count invariant
still holds. -/
theorem C8_truncate_to_first_max (cfg : Config) (files : List UploadedFile)
    (h : files.length > MAX_FILES) :
    truncate_uploads files = files.take MAX_FILES ∧
    (truncate_uploads files).length = MAX_FILES ∧
    (submitted_tasks cfg (truncate_uploads files)).countP isSuccessRet
        + (submitted_tasks cfg (truncate_uploads files)).countP isFailureRet
        = MAX_FILES := by
  have h1 : truncate_uploads files = files.take MAX_FILES := by
    rw [truncate_uploads, if_pos h]
  have h2 : (truncate_uploads files).length = MAX_FILES := by
    rw [h1, List.length_take]
    omega
  refine ⟨h1, h2, ?_⟩
  rw [countP_success_failure, submitted_tasks, List.length_map, h2]

/-- Witness for C8 at a batch of 11 files. -/
theorem C8_witness :
    truncate_uploads (List.replicate 11 fileGood)
        = (List.replicate 11 fileGood).take MAX_FILES ∧
    (truncate_uploads (List.replicate 11 fileGood)).length = MAX_FILES := by
  have h := C8_truncate_to_first_max cfgT (List.replicate 11 fileGood) (by decide)
  exact ⟨h.1, h.2.1⟩

/-- C9: over any nonempty batch the progress signals are one per completed
task, strictly increasing in the completed count, and the completed count
reaches the total exactly once (the `(N, N)` signal is emitted, and only
one signal has completed equal to total). -/
theorem C9_progress_signals (cfg : Config) (files : List UploadedFile)
    (h : files ≠ []) :
    (process_images_parallel cfg files).progress.length = files.length ∧
    (process_images_parallel cfg files).progress.Pairwise (fun a b => a.1 < b.1) ∧
    (process_images_parallel cfg files).progress.countP (fun p => p.1 == p.2) = 1 ∧
    (files.length, files.length) ∈ (process_images_parallel cfg files).progress := by
  rw [batch_progress]
  have hn : 0 < files.length := List.length_pos.mpr h
  refine ⟨progSeq_length 0 files.length files.length,
    progSeq_pairwise files.length files.length 0,
    progSeq_countP_hit files.length files.length 0 (Nat.zero_add _) hn, ?_⟩
  have h0 := progSeq_mem_last files.length files.length 0 hn
  rwa [Nat.zero_add] at h0

/-- Witness for C9 at a concrete one-file batch. -/
theorem C9_witness :
    (process_images_parallel cfgT [fileGood]).progress.length = 1 ∧
    ((1 : Nat), (1 : Nat)) ∈ (process_images_parallel cfgT [fileGood]).progress := by
  have h := C9_progress_signals cfgT [fileGood] (by decide)
  exact ⟨h.1, h.2.2.2⟩

/-- C10: when the Image option is selected but no background bitmap was
uploaded (`bg_image` is `None`), a successfully processed file's result is
the segmentation output unchanged — the task behaves exactly as the
Transparent variant. -/
theorem C10_missing_background_acts_transparent (cfg : Config) (f : UploadedFile)
    (hbg : cfg.bgOption = BgOption.image) (himg : cfg.bgImage = none)
    (hsize : f.size ≤ MAX_IMAGE_SIZE_MB * MB_TO_BYTES) (hexc : f.exc = none) :
    (process_single_image cfg f).second = ResOrMsg.img f.segmented ∧
    process_single_image cfg f
        = process_single_image { cfg with bgOption := BgOption.transparent } f := by
  have hlt : ¬ f.size > MAX_IMAGE_SIZE_MB * MB_TO_BYTES := by omega
  constructor
  · rw [process_single_image, if_neg hlt, hexc]
    simp [hbg, himg]
  · rw [process_single_image, process_single_image, if_neg hlt, if_neg hlt, hexc]
    simp [hbg, himg]

/-- Witness for C10 at a concrete configuration and file. -/
theorem C10_witness :
    process_single_image cfgImgNone fileGood
        = process_single_image { cfgImgNone with bgOption := BgOption.transparent } fileGood ∧
    (process_single_image cfgImgNone fileGood).second = ResOrMsg.img imgT := by
  have h := C10_missing_background_acts_transparent cfgImgNone fileGood rfl rfl (by decide) rfl
  exact ⟨h.2, h.1⟩

end BgRemover
